import Mathlib

/-!
# A verification development for the 3dQwarp registration driver

Shallow embedding of the option handling, input pre-processing, zero-padding
bookkeeping and output post-processing of `3dQwarp.c`, together with theorems
settling the specification claims about those parts.

Machine floats are modelled by exact rationals `ℚ`; C `int` values by `ℤ`
or `ℕ` where the source guarantees non-negativity.
-/

namespace Qwarp

/-! ## Small list utilities mirroring `mri_min` / `mri_max`

`mri_min`/`mri_max` scan all voxels of an image and return the extreme value.
We model a voxel array as a `List ℚ` in C index order. -/

/-- Function `mri_min` over a voxel list; the empty image returns 0 (never arises). -/
def mri_min : List ℚ → ℚ
  | [] => 0
  | x :: xs => xs.foldl min x

/-- Function `mri_max` over a voxel list; the empty image returns 0 (never arises). -/
def mri_max : List ℚ → ℚ
  | [] => 0
  | x :: xs => xs.foldl max x

theorem foldl_min_le_init (xs : List ℚ) (a : ℚ) : xs.foldl min a ≤ a := by
  induction xs generalizing a with
  | nil => simp
  | cons y ys ih => exact le_trans (ih (min a y)) (min_le_left a y)

theorem foldl_min_le_mem (xs : List ℚ) (a b : ℚ) (hb : b ∈ xs) :
    xs.foldl min a ≤ b := by
  induction xs generalizing a with
  | nil => cases hb
  | cons y ys ih =>
    rcases List.mem_cons.mp hb with h | h
    · subst h
      exact le_trans (foldl_min_le_init ys (min a b)) (min_le_right a b)
    · exact ih (min a y) h

theorem foldl_min_mem (xs : List ℚ) (a : ℚ) :
    xs.foldl min a = a ∨ xs.foldl min a ∈ xs := by
  induction xs generalizing a with
  | nil => left; rfl
  | cons y ys ih =>
    rcases ih (min a y) with h | h
    · rcases min_cases a y with ⟨hm, _⟩ | ⟨hm, _⟩
      · left; simpa [hm] using h
      · right; simp only [List.foldl_cons] at *
        rw [h, hm]; exact List.mem_cons_self y ys
    · right; exact List.mem_cons_of_mem y h

theorem init_le_foldl_max (xs : List ℚ) (a : ℚ) : a ≤ xs.foldl max a := by
  induction xs generalizing a with
  | nil => simp
  | cons y ys ih => exact le_trans (le_max_left a y) (ih (max a y))

theorem mem_le_foldl_max (xs : List ℚ) (a b : ℚ) (hb : b ∈ xs) :
    b ≤ xs.foldl max a := by
  induction xs generalizing a with
  | nil => cases hb
  | cons y ys ih =>
    rcases List.mem_cons.mp hb with h | h
    · subst h
      exact le_trans (le_max_right a b) (init_le_foldl_max ys (max a b))
    · exact ih (max a y) h

theorem foldl_max_mem (xs : List ℚ) (a : ℚ) :
    xs.foldl max a = a ∨ xs.foldl max a ∈ xs := by
  induction xs generalizing a with
  | nil => left; rfl
  | cons y ys ih =>
    rcases ih (max a y) with h | h
    · rcases max_cases a y with ⟨hm, _⟩ | ⟨hm, _⟩
      · left; simpa [hm] using h
      · right; simp only [List.foldl_cons] at *
        rw [h, hm]; exact List.mem_cons_self y ys
    · right; exact List.mem_cons_of_mem y h

/-- Fact: `mri_min l < 0` exactly when some voxel is negative. -/
theorem mri_min_neg_iff (l : List ℚ) : mri_min l < 0 ↔ ∃ x ∈ l, x < 0 := by
  constructor
  · intro h
    cases l with
    | nil => simp [mri_min] at h
    | cons x xs =>
      rcases foldl_min_mem xs x with he | he
      · exact ⟨x, List.mem_cons_self x xs, by simpa [mri_min, he] using h⟩
      · exact ⟨xs.foldl min x, List.mem_cons_of_mem x he, h⟩
  · rintro ⟨x, hx, hneg⟩
    cases l with
    | nil => cases hx
    | cons y ys =>
      rcases List.mem_cons.mp hx with h | h
      · subst h; exact lt_of_le_of_lt (foldl_min_le_init ys x) hneg
      · exact lt_of_le_of_lt (foldl_min_le_mem ys y x h) hneg

theorem mri_min_le_mem (l : List ℚ) (x : ℚ) (hx : x ∈ l) : mri_min l ≤ x := by
  cases l with
  | nil => cases hx
  | cons y ys =>
    rcases List.mem_cons.mp hx with h | h
    · subst h; exact foldl_min_le_init ys x
    · exact foldl_min_le_mem ys y x h

theorem mem_le_mri_max (l : List ℚ) (x : ℚ) (hx : x ∈ l) : x ≤ mri_max l := by
  cases l with
  | nil => cases hx
  | cons y ys =>
    rcases List.mem_cons.mp hx with h | h
    · subst h; exact init_le_foldl_max ys x
    · exact mem_le_foldl_max ys y x h

theorem mri_max_mem (l : List ℚ) (hne : l ≠ []) : mri_max l ∈ l := by
  cases l with
  | nil => exact absurd rfl hne
  | cons x xs =>
    rcases foldl_max_mem xs x with h | h
    · rw [mri_max, h]; exact List.mem_cons_self x xs
    · exact List.mem_cons_of_mem x h

/-! ## Minimum patch size clamping (C4)

`3dQwarp.c` line 1157:
`if( minpatch < NGMIN ) minpatch = NGMIN ; else if( minpatch%2 == 0 ) minpatch-- ;`
and line 1928: `if( minpatch > 0 ) Hngmin = minpatch ;`. -/

/-- Modelled from the spec: `NGMIN` is the hard minimum patch size, defined in
`mri_nwarp.c` (not part of this tree); the spec fixes it at 9
("default 25, hard floor 9, enforced odd"). -/
def NGMIN : ℤ := 9

/-- Modelled from the spec: the default minimum patch size `Hngmin`, declared
in `mri_nwarp.c` (not part of this tree); the spec fixes the default at 25. -/
def Hngmin_default : ℤ := 25

/-- The `-minpatch`/`-patchmin` argument clamping of `3dQwarp.c:1157`. -/
def clampMinpatch (v : ℤ) : ℤ :=
  if v < NGMIN then NGMIN
  else if v % 2 = 0 then v - 1
  else v

/-- The minimum patch size actually used: the clamped user value when one was
given (`minpatch > 0` after clamping is always true), else the default. -/
def usedMinpatch (given : Option ℤ) : ℤ :=
  match given with
  | some v => clampMinpatch v
  | none => Hngmin_default

/-- C4: the minimum patch size actually used is at least the hard floor 9 and
is odd; a supplied value below 9 is raised to 9, an even value at least 9 is
decremented by one, and an odd value at least 9 is kept. -/
theorem minpatch_floor_odd (g : Option ℤ) (v : ℤ) :
    (9 ≤ usedMinpatch g ∧ Odd (usedMinpatch g)) ∧
    (v < 9 → clampMinpatch v = 9) ∧
    (9 ≤ v ∧ v % 2 = 0 → clampMinpatch v = v - 1) ∧
    (9 ≤ v ∧ v % 2 = 1 → clampMinpatch v = v) := by
  refine ⟨⟨?_, ?_⟩, ?_, ?_, ?_⟩
  · cases g with
    | none => simp [usedMinpatch, Hngmin_default]
    | some w =>
      simp only [usedMinpatch, clampMinpatch, NGMIN]
      split_ifs <;> omega
  · cases g with
    | none =>
      simp only [usedMinpatch, Hngmin_default, Int.odd_iff]
      decide
    | some w =>
      simp only [usedMinpatch, clampMinpatch, NGMIN, Int.odd_iff]
      split_ifs <;> omega
  · intro h; simp only [clampMinpatch, NGMIN]; split_ifs <;> omega
  · intro h; simp only [clampMinpatch, NGMIN]; split_ifs <;> omega
  · intro h; simp only [clampMinpatch, NGMIN]; split_ifs <;> omega

/-- Concrete instance of `minpatch_floor_odd` at supplied values 4, 10, 11. -/
theorem minpatch_floor_odd_witness :
    (9 ≤ usedMinpatch (some 4) ∧ Odd (usedMinpatch (some 4))) ∧
    clampMinpatch 4 = 9 ∧ clampMinpatch 10 = 10 - 1 ∧ clampMinpatch 11 = 11 := by
  refine ⟨(minpatch_floor_odd (some 4) 4).1,
          (minpatch_floor_odd (some 4) 4).2.1 (by decide),
          (minpatch_floor_odd (some 4) 10).2.2.1 ⟨by decide, by decide⟩,
          (minpatch_floor_odd (some 4) 11).2.2.2 ⟨by decide, by decide⟩⟩

/-! ## Negative-value handling and the similarity-method fail-over (C1)

`3dQwarp.c` lines 1680-1701: clip negatives to zero under `-noneg` (with a
report), then switch the clipped-Pearson default to strict Pearson when a
negative minimum survives (with a report). -/

/-- The similarity metrics selectable on the command line
(`GA_MATCH_*` codes, as a closed variant type). -/
inductive MatchMethod where
  | pearclp    -- GA_MATCH_PEARCLP_SCALAR (default, -pcl)
  | pearson    -- GA_MATCH_PEARSON_SCALAR (-pear)
  | hellinger  -- GA_MATCH_HELLINGER_SCALAR (-hel)
  | kullback   -- GA_MATCH_KULLBACK_SCALAR (-mi)
  | normutin   -- GA_MATCH_NORMUTIN_SCALAR (-nmi)
  | localps    -- GA_MATCH_PEARSON_LOCALS (-lpc)
  | localpa    -- GA_MATCH_PEARSON_LOCALA (-lpa)
deriving DecidableEq

/-- One pass of `if( bar[ii] < 0.0f ) bar[ii] = 0.0` over the voxels. -/
def clipNeg (l : List ℚ) : List ℚ := l.map fun x => if x < 0 then 0 else x

/-- Result of the negative-value handling block. -/
structure NegResult where
  bim : List ℚ
  sim : List ℚ
  meth : MatchMethod
  msgs : List String
deriving DecidableEq

/-- Lines `3dQwarp.c:1680-1701`: under `-noneg`, negative base/source voxels are
set to zero and the respective minimum becomes 0; afterwards, if a negative
minimum remains and the method is the clipped-Pearson default, the method is
replaced by strict Pearson.  Each action is reported. -/
def dealWithNegValues (noneg : Bool) (meth : MatchMethod)
    (bim0 sim0 : List ℚ) : NegResult :=
  let bim := if mri_min bim0 < 0 ∧ noneg = true then clipNeg bim0 else bim0
  let sim := if mri_min sim0 < 0 ∧ noneg = true then clipNeg sim0 else sim0
  let bmin : ℚ := if mri_min bim0 < 0 ∧ noneg = true then 0 else mri_min bim0
  let smin : ℚ := if mri_min sim0 < 0 ∧ noneg = true then 0 else mri_min sim0
  let msgs :=
    (if mri_min bim0 < 0 ∧ noneg = true
       then ["-noneg converted base voxels to 0"] else []) ++
    (if mri_min sim0 < 0 ∧ noneg = true
       then ["-noneg converted source voxels to 0"] else [])
  if (bmin < 0 ∨ smin < 0) ∧ meth = .pearclp then
    ⟨bim, sim, .pearson,
     msgs ++ ["negative values ==> using strict Pearson correlation"]⟩
  else
    ⟨bim, sim, meth, msgs⟩

theorem dealWithNegValues_noneg_off (meth : MatchMethod) (b s : List ℚ) :
    dealWithNegValues false meth b s =
      if (mri_min b < 0 ∨ mri_min s < 0) ∧ meth = .pearclp then
        ⟨b, s, .pearson,
         ["negative values ==> using strict Pearson correlation"]⟩
      else ⟨b, s, meth, []⟩ := by
  simp [dealWithNegValues]

theorem dealWithNegValues_noneg_on (meth : MatchMethod) (b s : List ℚ) :
    dealWithNegValues true meth b s =
      ⟨(if mri_min b < 0 then clipNeg b else b),
       (if mri_min s < 0 then clipNeg s else s),
       meth,
       (if mri_min b < 0
          then ["-noneg converted base voxels to 0"] else []) ++
       (if mri_min s < 0
          then ["-noneg converted source voxels to 0"] else [])⟩ := by
  by_cases hb : mri_min b < 0 <;> by_cases hs : mri_min s < 0 <;>
    simp [dealWithNegValues, hb, hs]

theorem clipNeg_nonneg (l : List ℚ) : ∀ x ∈ clipNeg l, 0 ≤ x := by
  intro x hx
  rcases List.mem_map.mp hx with ⟨y, _, rfl⟩
  by_cases h : y < 0
  · simp [h]
  · simp only [if_neg h]
    exact le_of_not_lt h

theorem nonneg_of_mri_min_nonneg (l : List ℚ) (h : ¬ mri_min l < 0) :
    ∀ x ∈ l, 0 ≤ x :=
  fun x hx => le_trans (le_of_not_lt h) (mri_min_le_mem l x hx)

/-- C1: with the default clipped-Pearson method and no `-noneg`, a negative
voxel in either input makes the program substitute strict Pearson and report
it; with `-noneg`, negative voxels are zeroed (and reported) first, so the
method is never substituted and both images end up non-negative. -/
theorem negvalue_metric_failover (noneg : Bool) (meth : MatchMethod)
    (b s : List ℚ) :
    (noneg = false → meth = .pearclp →
      ((∃ x ∈ b, x < 0) ∨ (∃ x ∈ s, x < 0)) →
        (dealWithNegValues noneg meth b s).meth = .pearson ∧
        "negative values ==> using strict Pearson correlation" ∈
          (dealWithNegValues noneg meth b s).msgs) ∧
    (noneg = true →
        (dealWithNegValues noneg meth b s).meth = meth ∧
        (∀ x ∈ (dealWithNegValues noneg meth b s).bim, 0 ≤ x) ∧
        (∀ x ∈ (dealWithNegValues noneg meth b s).sim, 0 ≤ x) ∧
        ((∃ x ∈ b, x < 0) → "-noneg converted base voxels to 0" ∈
            (dealWithNegValues noneg meth b s).msgs) ∧
        ((∃ x ∈ s, x < 0) → "-noneg converted source voxels to 0" ∈
            (dealWithNegValues noneg meth b s).msgs)) := by
  constructor
  · intro hn hm hneg
    subst hn; subst hm
    have hd : mri_min b < 0 ∨ mri_min s < 0 := by
      rcases hneg with h | h
      · exact Or.inl ((mri_min_neg_iff b).mpr h)
      · exact Or.inr ((mri_min_neg_iff s).mpr h)
    rw [dealWithNegValues_noneg_off, if_pos ⟨hd, rfl⟩]
    exact ⟨rfl, by simp⟩
  · intro hn
    subst hn
    rw [dealWithNegValues_noneg_on]
    refine ⟨rfl, ?_, ?_, ?_, ?_⟩
    · by_cases hb : mri_min b < 0
      · simpa [hb] using clipNeg_nonneg b
      · simpa [hb] using nonneg_of_mri_min_nonneg b hb
    · by_cases hs : mri_min s < 0
      · simpa [hs] using clipNeg_nonneg s
      · simpa [hs] using nonneg_of_mri_min_nonneg s hs
    · intro h
      have hb := (mri_min_neg_iff b).mpr h
      simp [hb]
    · intro h
      have hs := (mri_min_neg_iff s).mpr h
      simp [hs]

/-- Concrete instance of `negvalue_metric_failover`: base `[-1, 2]`,
source `[3]` without `-noneg`; base `[-1]`, source `[2]` with `-noneg`. -/
theorem negvalue_metric_failover_witness :
    ((dealWithNegValues false .pearclp [-1, 2] [3]).meth = .pearson ∧
     "negative values ==> using strict Pearson correlation" ∈
       (dealWithNegValues false .pearclp [-1, 2] [3]).msgs) ∧
    ((dealWithNegValues true .pearclp [-1] [2]).meth = .pearclp ∧
     "-noneg converted base voxels to 0" ∈
       (dealWithNegValues true .pearclp [-1] [2]).msgs) := by
  refine ⟨(negvalue_metric_failover false .pearclp [-1, 2] [3]).1 rfl rfl
            (Or.inl ⟨-1, by decide⟩), ?_, ?_⟩
  · exact ((negvalue_metric_failover true .pearclp [-1] [2]).2 rfl).1
  · exact ((negvalue_metric_failover true .pearclp [-1] [2]).2 rfl).2.2.2.1
      ⟨-1, by decide⟩

/-! ## Weight-volume normalization (C2)

`3dQwarp.c` lines 1974-1982: whatever weight volume is in hand (auto-derived
or user-supplied), scale it so that the maximum is 1 and every value is
non-negative; a non-positive maximum is a fatal error. -/

/-- The scaling block of `3dQwarp.c:1976-1982`:
`fac = mri_max(wbim); if (fac <= 0) ERROR_exit; fac = 1/fac;`
`wt[ii] = (wt[ii] <= 0) ? 0 : fac*wt[ii]`. -/
def scaleWeight (w : List ℚ) : Except String (List ℚ) :=
  let fac := mri_max w
  if fac ≤ 0 then .error "weight volume is not positive?!"
  else .ok (w.map fun x => if x ≤ 0 then 0 else x / fac)

/-! ## Grid-size check and the write pipeline (C7)

`3dQwarp.c` lines 1910-1915: the largest grid dimension that is at least
`NGMIN` is found; if there is none, the run aborts before any optimization,
so nothing is ever written. -/

/-- Lines `3dQwarp.c:1910-1913`: find the largest dimension at least `NGMIN`
(returns 0 when none qualifies). -/
def largestWarpableDim (nx ny nz : ℕ) : ℕ :=
  let n1 := if 9 ≤ nx then nx else 0
  let n2 := if 9 ≤ ny ∧ n1 < ny then ny else n1
  if 9 ≤ nz ∧ n2 < nz then nz else n2

/-- Lines `3dQwarp.c:1914-1915`: fatal error when no dimension is warpable. -/
def gridSizeCheck (nx ny nz : ℕ) : Except String ℕ :=
  if largestWarpableDim nx ny nz = 0 then
    .error "dataset grid size is too small for warping"
  else .ok (largestWarpableDim nx ny nz)

/-- The tail of the main program after zero-padding, abstracted to the events
this development reasons about: the grid-size check, the weight
normalization, the optimization (abstract), then writing the outputs.  The
returned list is the list of datasets written to disk. -/
def qwarpWrites (opt : List ℚ → List ℚ) (nx ny nz : ℕ) (w : List ℚ)
    (nowarp nodset : Bool) : Except String (List String) := do
  let _ ← gridSizeCheck nx ny nz
  let w' ← scaleWeight w
  let _ := opt w'
  pure ((if nodset then [] else ["warped dataset"]) ++
        (if nowarp then [] else ["warp dataset"]))

/-- C2: for a non-empty weight volume, a non-positive maximum is a fatal
error (before the optimizer ever runs, so nothing is written), and
otherwise the scaled volume is non-negative everywhere with maximum
exactly 1. -/
theorem weight_scaled_max_one (w : List ℚ) (hne : w ≠ []) :
    (mri_max w ≤ 0 → scaleWeight w = .error "weight volume is not positive?!") ∧
    (mri_max w ≤ 0 → ∀ (opt : List ℚ → List ℚ) (nx : ℕ), 9 ≤ nx →
      qwarpWrites opt nx nx nx w false false =
        .error "weight volume is not positive?!") ∧
    (0 < mri_max w → ∃ w', scaleWeight w = .ok w' ∧
      (∀ x ∈ w', 0 ≤ x) ∧ mri_max w' = 1) := by
  refine ⟨?_, ?_, ?_⟩
  · intro h
    simp [scaleWeight, h]
  · intro h opt nx hnx
    have hld : largestWarpableDim nx nx nx = nx := by
      simp only [largestWarpableDim]
      split_ifs <;> omega
    simp only [qwarpWrites, gridSizeCheck, hld]
    rw [if_neg (by omega : ¬ nx = 0)]
    simp only [scaleWeight, if_pos h]
    rfl
  · intro h
    set m := mri_max w with hm
    have hmem : m ∈ w := mri_max_mem w hne
    refine ⟨w.map fun x => if x ≤ 0 then 0 else x / m,
           by simp [scaleWeight, not_le.mpr h], ?_, ?_⟩
    · intro x hx
      rcases List.mem_map.mp hx with ⟨y, _, rfl⟩
      by_cases hy : y ≤ 0
      · simp [hy]
      · rw [if_neg hy]
        exact div_nonneg (le_of_not_le hy) (le_of_lt h)
    · have hone : (1:ℚ) ∈ w.map fun x => if x ≤ 0 then 0 else x / m := by
        refine List.mem_map.mpr ⟨m, hmem, ?_⟩
        rw [if_neg (not_le.mpr h)]
        exact div_self (ne_of_gt h)
      have hboundall : ∀ x ∈ w.map (fun x => if x ≤ 0 then 0 else x / m),
          x ≤ 1 := by
        intro x hx
        rcases List.mem_map.mp hx with ⟨y, hy, rfl⟩
        by_cases hy0 : y ≤ 0
        · simp [hy0]
        · rw [if_neg hy0]
          exact (div_le_one h).mpr (mem_le_mri_max w y hy)
      have hle : mri_max (w.map fun x => if x ≤ 0 then 0 else x / m) ≤ 1 := by
        have hne' : w.map (fun x => if x ≤ 0 then 0 else x / m) ≠ [] := by
          simpa using hne
        exact hboundall _ (mri_max_mem _ hne')
      have hge : 1 ≤ mri_max (w.map fun x => if x ≤ 0 then 0 else x / m) :=
        mem_le_mri_max _ 1 hone
      exact le_antisymm hle hge

/-- Concrete instance of `weight_scaled_max_one` at `w = [2, -1, 0]` (max 2)
and `w = [0, -3]` (max 0, fatal). -/
theorem weight_scaled_max_one_witness :
    (∃ w', scaleWeight [2, -1, 0] = .ok w' ∧
      (∀ x ∈ w', 0 ≤ x) ∧ mri_max w' = 1) ∧
    scaleWeight [0, -3] = .error "weight volume is not positive?!" := by
  constructor
  · exact (weight_scaled_max_one [2, -1, 0] (by decide)).2.2
      (by norm_num [mri_max])
  · exact (weight_scaled_max_one [0, -3] (by decide)).1 (by norm_num [mri_max])

/-- C7: the grid-size check fails exactly when every dimension is below the
hard minimum patch size 9, and in that case the run errors out with nothing
written. -/
theorem grid_too_small_fatal (opt : List ℚ → List ℚ) (nx ny nz : ℕ)
    (w : List ℚ) (nowarp nodset : Bool) :
    ((∃ e, gridSizeCheck nx ny nz = .error e) ↔ nx < 9 ∧ ny < 9 ∧ nz < 9) ∧
    (nx < 9 → ny < 9 → nz < 9 →
      qwarpWrites opt nx ny nz w nowarp nodset =
        .error "dataset grid size is too small for warping") := by
  have hiff : largestWarpableDim nx ny nz = 0 ↔ nx < 9 ∧ ny < 9 ∧ nz < 9 := by
    simp only [largestWarpableDim]
    split_ifs <;> omega
  constructor
  · constructor
    · rintro ⟨e, he⟩
      by_cases h : largestWarpableDim nx ny nz = 0
      · exact hiff.mp h
      · simp [gridSizeCheck, h] at he
    · intro h
      exact ⟨"dataset grid size is too small for warping",
             by simp [gridSizeCheck, hiff.mpr h]⟩
  · intro h1 h2 h3
    have h := hiff.mpr ⟨h1, h2, h3⟩
    simp only [qwarpWrites, gridSizeCheck, if_pos h]
    rfl

/-- Concrete instance of `grid_too_small_fatal` on an 8×8×8 grid. -/
theorem grid_too_small_fatal_witness :
    qwarpWrites id 8 8 8 [1] false false =
      .error "dataset grid size is too small for warping" :=
  (grid_too_small_fatal id 8 8 8 [1] false false).2 (by decide) (by decide)
    (by decide)

/-! ## Configuration conflicts after option parsing (C3)

`3dQwarp.c` lines 1422-1481.  Some flag conflicts are *fatal*
(`ERROR_message` + `nbad++`, then `ERROR_exit`), others are resolved in
place with a message. -/

/-- The option-parse results that the post-parse conflict checking reads. -/
structure ParsedOpts where
  noXdis : Bool        -- -noXdis
  noYdis : Bool        -- -noYdis
  noZdis : Bool        -- -noZdis
  do_allin : ℕ         -- 0 = none, 1 = -allineate, 2 = -allinfast
  do_resam : Bool      -- -resample
  do_plusminus : Bool  -- -plusminus
  duplo : Bool         -- -duplo
  iwname : Bool        -- -iniwarp given
  ilev : ℕ             -- -inilev (clamped 0..19)
  mlev : ℕ             -- -maxlev (666 when not given, else clamped 0..99)
  znoq : Bool          -- -noQ
  qonly : Bool         -- -Qonly
  qfinal : Bool        -- -Qfinal
  meth_is_lpc : Bool   -- -lpc
deriving DecidableEq

/-- The fatal `ERROR_message`s of `3dQwarp.c:1425-1458` (grid/read errors
aside); the run exits when this list is non-empty (`1462-1463`). -/
def fatalMsgs (c : ParsedOpts) : List String :=
  (if c.noXdis = true ∧ c.noYdis = true ∧ c.noZdis = true
     then ["too many -no?dis flags ==> nothing to warp!"] else []) ++
  (if 0 < c.do_allin ∧ c.do_plusminus = true
     then ["You cannot use -allineate and -plusminus together :-("] else []) ++
  (if 0 < c.do_allin ∧ c.iwname = true
     then ["You cannot use -allineate and -iniwarp together :-("] else []) ++
  (if 0 < c.do_allin ∧ 0 < c.ilev
     then ["You cannot use -allineate and -inilev together :-("] else []) ++
  (if c.iwname = true ∧ c.duplo = true
     then ["You cannot combine -iniwarp and -duplo !! :-(("] else []) ++
  (if (c.ilev ≠ 0 ∨ c.mlev < 99) ∧ c.duplo = true
     then ["You cannot combine -inilev or -maxlev and -duplo !! :-(("] else [])

/-- The deterministic resolutions of `3dQwarp.c:1433-1436` and `1470-1481`:
`-allineate` turns off `-resample`; `-plusminus` turns off `-duplo`;
`-Qonly`/`-Qfinal` turn off `-noQ`. -/
def resolveConflicts (c : ParsedOpts) : ParsedOpts :=
  { c with
    do_resam := if 0 < c.do_allin ∧ c.do_resam = true then false
                else c.do_resam,
    duplo := if c.do_plusminus = true ∧ c.duplo = true then false
             else c.duplo,
    znoq := if c.znoq = true ∧ c.qonly = true then false
            else if c.znoq = true ∧ c.qfinal = true then false
            else c.znoq }

/-- The messages reported for the resolved conflicts (including the purely
advisory `-lpc`/`-maxlev` note of `1467-1468`). -/
def conflictMsgs (c : ParsedOpts) : List String :=
  (if 0 < c.do_allin ∧ c.do_resam = true
     then ["-allineate turns off -resample"] else []) ++
  (if c.meth_is_lpc = true ∧ 0 < c.mlev
     then ["Use of -maxlev 0 is recommended with -lpc"] else []) ++
  (if c.do_plusminus = true ∧ c.duplo = true
     then ["-plusminus does not work with -duplo -- turning -duplo off"]
     else []) ++
  (if c.znoq = true ∧ c.qonly = true
     then ["-znoQ and -Qonly cannot be combined: turning off -znoQ"]
   else if c.znoq = true ∧ c.qfinal = true
     then ["-znoQ and -Qfinal cannot be combined: turning off -znoQ"]
   else [])

/-- The post-parse check of `3dQwarp.c:1422-1481`: exit fatally when any
fatal conflict message was issued, else continue with the conflicts
resolved. -/
def checkErrors (c : ParsedOpts) :
    Except (List String) (ParsedOpts × List String) :=
  if fatalMsgs c = [] then .ok (resolveConflicts c, conflictMsgs c)
  else .error (fatalMsgs c)

/-- Config `-allineate -plusminus`: both flags given, nothing else special. -/
def allinPlusminusConfig : ParsedOpts :=
  { noXdis := false, noYdis := false, noZdis := false, do_allin := 1,
    do_resam := false, do_plusminus := true, duplo := false, iwname := false,
    ilev := 0, mlev := 666, znoq := false, qonly := false, qfinal := false,
    meth_is_lpc := false }

/-- C3 counterexample: the mutually exclusive pair `-allineate`/`-plusminus`
is *not* resolved with a warning; the run aborts. -/
theorem mutually_exclusive_flags_can_abort :
    checkErrors allinPlusminusConfig =
      .error ["You cannot use -allineate and -plusminus together :-("] := by
  rfl

/-- C3 amended: conflicts that leave `fatalMsgs` empty are resolved
deterministically with a message and never abort: `-allineate` overrides
`-resample`, `-plusminus` overrides `-duplo`, and `-Qonly`/`-Qfinal`
override `-noQ`, each reported; other mutually exclusive pairs
(`-allineate` with `-plusminus`/`-iniwarp`/`-inilev`, `-duplo` with
`-iniwarp`/`-inilev`/`-maxlev`) are fatal. -/
theorem nonfatal_conflicts_resolved (c : ParsedOpts)
    (h : fatalMsgs c = []) :
    checkErrors c = .ok (resolveConflicts c, conflictMsgs c) ∧
    ((resolveConflicts c).do_resam = true ↔
       c.do_resam = true ∧ c.do_allin = 0) ∧
    ((resolveConflicts c).duplo = true ↔
       c.duplo = true ∧ c.do_plusminus = false) ∧
    ((resolveConflicts c).znoq = true ↔
       c.znoq = true ∧ c.qonly = false ∧ c.qfinal = false) ∧
    (0 < c.do_allin → c.do_resam = true →
       "-allineate turns off -resample" ∈ conflictMsgs c) ∧
    (c.do_plusminus = true → c.duplo = true →
       "-plusminus does not work with -duplo -- turning -duplo off" ∈
         conflictMsgs c) ∧
    (c.znoq = true → c.qonly = true →
       "-znoQ and -Qonly cannot be combined: turning off -znoQ" ∈
         conflictMsgs c) ∧
    (c.znoq = true → c.qonly = false → c.qfinal = true →
       "-znoQ and -Qfinal cannot be combined: turning off -znoQ" ∈
         conflictMsgs c) := by
  refine ⟨by simp [checkErrors, h], ?_, ?_, ?_, ?_, ?_, ?_, ?_⟩
  · show (if 0 < c.do_allin ∧ c.do_resam = true then false
          else c.do_resam) = true ↔ _
    split_ifs with hc
    · simp only [Bool.false_eq_true, false_iff]
      rintro ⟨_, ha⟩
      omega
    · constructor
      · intro hr
        refine ⟨hr, ?_⟩
        by_contra ha
        exact hc ⟨Nat.pos_of_ne_zero ha, hr⟩
      · exact fun hx => hx.1
  · show (if c.do_plusminus = true ∧ c.duplo = true then false
          else c.duplo) = true ↔ _
    cases hp : c.do_plusminus <;> cases hd : c.duplo <;> simp
  · show (if c.znoq = true ∧ c.qonly = true then false
          else if c.znoq = true ∧ c.qfinal = true then false
          else c.znoq) = true ↔ _
    cases hz : c.znoq <;> cases hq : c.qonly <;> cases hf : c.qfinal <;> simp
  · intro ha hr
    simp [conflictMsgs, ha, hr]
  · intro hp hd
    simp [conflictMsgs, hp, hd]
  · intro hz hq
    simp [conflictMsgs, hz, hq]
  · intro hz hq hf
    simp [conflictMsgs, hz, hq, hf]

/-- Config `-allineate -resample`: a resolvable conflict. -/
def allinResamConfig : ParsedOpts :=
  { noXdis := false, noYdis := false, noZdis := false, do_allin := 1,
    do_resam := true, do_plusminus := false, duplo := false, iwname := false,
    ilev := 0, mlev := 666, znoq := false, qonly := false, qfinal := false,
    meth_is_lpc := false }

/-- Concrete instance of `nonfatal_conflicts_resolved`: with `-allineate`
and `-resample` both given, the run continues, `-resample` is turned off,
and the override is reported. -/
theorem nonfatal_conflicts_resolved_witness :
    checkErrors allinResamConfig =
      .ok (resolveConflicts allinResamConfig, conflictMsgs allinResamConfig) ∧
    ((resolveConflicts allinResamConfig).do_resam = true ↔
       allinResamConfig.do_resam = true ∧ allinResamConfig.do_allin = 0) ∧
    "-allineate turns off -resample" ∈ conflictMsgs allinResamConfig := by
  refine ⟨(nonfatal_conflicts_resolved allinResamConfig rfl).1,
          (nonfatal_conflicts_resolved allinResamConfig rfl).2.1,
          (nonfatal_conflicts_resolved allinResamConfig rfl).2.2.2.2.1
            (by decide) rfl⟩

/-! ## 3D images and zero-padding (C5, C6)

A 3D image is its grid dimensions and a voxel accessor (out-of-range indices
are irrelevant; all statements quantify over in-range voxels only). -/

/-- A dense 3D scalar image. -/
structure Image3D where
  nx : ℕ
  ny : ℕ
  nz : ℕ
  vox : ℕ → ℕ → ℕ → ℚ

/-- Modelled from the spec: `mri_zeropad_3D(nxbot,nxtop,nybot,nytop,nzbot,
nztop,im)` lives in the image library, outside this tree.  Positive amounts
add that many zero-filled planes on the corresponding face; negative amounts
crop.  Original voxel `(i,j,k)` sits at `(i+nxbot, j+nybot, k+nzbot)` in the
result. -/
def mri_zeropad_3D (nxbot nxtop nybot nytop nzbot nztop : ℤ)
    (im : Image3D) : Image3D where
  nx := ((im.nx : ℤ) + nxbot + nxtop).toNat
  ny := ((im.ny : ℤ) + nybot + nytop).toNat
  nz := ((im.nz : ℤ) + nzbot + nztop).toNat
  vox := fun i j k =>
    if 0 ≤ (i : ℤ) - nxbot ∧ (i : ℤ) - nxbot < im.nx ∧
       0 ≤ (j : ℤ) - nybot ∧ (j : ℤ) - nybot < im.ny ∧
       0 ≤ (k : ℤ) - nzbot ∧ (k : ℤ) - nzbot < im.nz then
      im.vox ((i : ℤ) - nxbot).toNat ((j : ℤ) - nybot).toNat
             ((k : ℤ) - nzbot).toNat
    else 0

/-- C5: zero-padding by non-negative per-face amounts and then padding by
the negated amounts (the un-padding idiom of `3dQwarp.c:2045`) restores the
grid dimensions and every original voxel exactly. -/
theorem zeropad_roundtrip (im : Image3D) (pxm pxp pym pyp pzm pzp : ℤ)
    (hxm : 0 ≤ pxm) (hxp : 0 ≤ pxp) (hym : 0 ≤ pym) (hyp : 0 ≤ pyp)
    (hzm : 0 ≤ pzm) (hzp : 0 ≤ pzp) :
    (mri_zeropad_3D (-pxm) (-pxp) (-pym) (-pyp) (-pzm) (-pzp)
        (mri_zeropad_3D pxm pxp pym pyp pzm pzp im)).nx = im.nx ∧
    (mri_zeropad_3D (-pxm) (-pxp) (-pym) (-pyp) (-pzm) (-pzp)
        (mri_zeropad_3D pxm pxp pym pyp pzm pzp im)).ny = im.ny ∧
    (mri_zeropad_3D (-pxm) (-pxp) (-pym) (-pyp) (-pzm) (-pzp)
        (mri_zeropad_3D pxm pxp pym pyp pzm pzp im)).nz = im.nz ∧
    ∀ i j k, i < im.nx → j < im.ny → k < im.nz →
      (mri_zeropad_3D (-pxm) (-pxp) (-pym) (-pyp) (-pzm) (-pzp)
          (mri_zeropad_3D pxm pxp pym pyp pzm pzp im)).vox i j k =
        im.vox i j k := by
  refine ⟨?_, ?_, ?_, ?_⟩
  · simp only [mri_zeropad_3D]; omega
  · simp only [mri_zeropad_3D]; omega
  · simp only [mri_zeropad_3D]; omega
  · intro i j k hi hj hk
    simp only [mri_zeropad_3D]
    split_ifs with h1 h2
    · have e1 : ((((i : ℤ) - -pxm).toNat : ℤ) - pxm).toNat = i := by omega
      have e2 : ((((j : ℤ) - -pym).toNat : ℤ) - pym).toNat = j := by omega
      have e3 : ((((k : ℤ) - -pzm).toNat : ℤ) - pzm).toNat = k := by omega
      rw [e1, e2, e3]
    · exfalso; omega
    · exfalso; omega

/-- A 2×1×1 test image: voxels 5 and 7. -/
def testImage : Image3D := ⟨2, 1, 1, fun i _ _ => if i = 0 then 5 else 7⟩

/-- Concrete instance of `zeropad_roundtrip` on `testImage` with pad amounts
1,2,3,4,5,6. -/
theorem zeropad_roundtrip_witness :
    (mri_zeropad_3D (-1) (-2) (-3) (-4) (-5) (-6)
        (mri_zeropad_3D 1 2 3 4 5 6 testImage)).nx = testImage.nx ∧
    (mri_zeropad_3D (-1) (-2) (-3) (-4) (-5) (-6)
        (mri_zeropad_3D 1 2 3 4 5 6 testImage)).vox 1 0 0 =
      testImage.vox 1 0 0 := by
  have h := zeropad_roundtrip testImage 1 2 3 4 5 6 (by decide) (by decide)
    (by decide) (by decide) (by decide) (by decide)
  exact ⟨h.1, h.2.2.2 1 0 0 (by decide) (by decide) (by decide)⟩

/-! ## Un-padding of the outputs (C6)

`3dQwarp.c` lines 2039-2068: when zero-padding happened, the output image is
cropped back to the original base grid whenever its grid is larger; the
output *warp* is cropped only when `-nopadWARP` (`zeropad_warp == 0`) was
given. -/

/-- The output-image crop of `3dQwarp.c:2043-2047`. -/
def unzeropadOutputImage (zeropad : Bool) (nxold nyold nzold : ℕ)
    (pxm pxp pym pyp pzm pzp : ℤ) (im : Image3D) : Image3D :=
  if zeropad = true ∧ (nxold < im.nx ∨ nyold < im.ny ∨ nzold < im.nz) then
    mri_zeropad_3D (-pxm) (-pxp) (-pym) (-pyp) (-pzm) (-pzp) im
  else im

/-- The output-warp crop of `3dQwarp.c:2050-2054` (`IW3D_extend` by the
negated pad amounts, modelled on the grid the same way). -/
def unzeropadOutputWarp (zeropad zeropad_warp : Bool)
    (pxm pxp pym pyp pzm pzp : ℤ) (warp : Image3D) : Image3D :=
  if zeropad = true ∧ zeropad_warp = false then
    mri_zeropad_3D (-pxm) (-pxp) (-pym) (-pyp) (-pzm) (-pzp) warp
  else warp

/-- The whole un-padding block (`3dQwarp.c:2039-2068`) for the standard
(non-plusminus) outputs. -/
def postProcessZeropad (zeropad zeropad_warp : Bool)
    (nxold nyold nzold : ℕ) (pxm pxp pym pyp pzm pzp : ℤ)
    (im warp : Image3D) : Image3D × Image3D :=
  (unzeropadOutputImage zeropad nxold nyold nzold pxm pxp pym pyp pzm pzp im,
   unzeropadOutputWarp zeropad zeropad_warp pxm pxp pym pyp pzm pzp warp)

/-- C6: when zero-padding enlarged the working grid, the output image is
cropped back exactly to the original base grid, and this does not depend on
whether `-nopadWARP` keeps the output warp padded. -/
theorem output_image_on_base_grid (zeropad_warp : Bool)
    (nxold nyold nzold : ℕ) (pxm pxp pym pyp pzm pzp : ℤ) (im warp : Image3D)
    (hxm : 0 ≤ pxm) (hxp : 0 ≤ pxp) (hym : 0 ≤ pym) (hyp : 0 ≤ pyp)
    (hzm : 0 ≤ pzm) (hzp : 0 ≤ pzp)
    (hpos : 0 < pxm + pxp + pym + pyp + pzm + pzp)
    (hx : (im.nx : ℤ) = nxold + pxm + pxp)
    (hy : (im.ny : ℤ) = nyold + pym + pyp)
    (hz : (im.nz : ℤ) = nzold + pzm + pzp) :
    (postProcessZeropad true zeropad_warp nxold nyold nzold
        pxm pxp pym pyp pzm pzp im warp).1.nx = nxold ∧
    (postProcessZeropad true zeropad_warp nxold nyold nzold
        pxm pxp pym pyp pzm pzp im warp).1.ny = nyold ∧
    (postProcessZeropad true zeropad_warp nxold nyold nzold
        pxm pxp pym pyp pzm pzp im warp).1.nz = nzold ∧
    (∀ i j k, i < nxold → j < nyold → k < nzold →
      (postProcessZeropad true zeropad_warp nxold nyold nzold
          pxm pxp pym pyp pzm pzp im warp).1.vox i j k =
        im.vox ((i : ℤ) + pxm).toNat ((j : ℤ) + pym).toNat
               ((k : ℤ) + pzm).toNat) ∧
    (postProcessZeropad true true nxold nyold nzold
        pxm pxp pym pyp pzm pzp im warp).1 =
      (postProcessZeropad true false nxold nyold nzold
          pxm pxp pym pyp pzm pzp im warp).1 := by
  have hcrop : unzeropadOutputImage true nxold nyold nzold
      pxm pxp pym pyp pzm pzp im =
      mri_zeropad_3D (-pxm) (-pxp) (-pym) (-pyp) (-pzm) (-pzp) im := by
    unfold unzeropadOutputImage
    exact if_pos ⟨rfl, by omega⟩
  refine ⟨?_, ?_, ?_, ?_, rfl⟩
  · simp only [postProcessZeropad, hcrop, mri_zeropad_3D]
    omega
  · simp only [postProcessZeropad, hcrop, mri_zeropad_3D]
    omega
  · simp only [postProcessZeropad, hcrop, mri_zeropad_3D]
    omega
  · intro i j k hi hj hk
    simp only [postProcessZeropad, hcrop, mri_zeropad_3D]
    split_ifs with hin
    · have e1 : ((i : ℤ) - -pxm).toNat = ((i : ℤ) + pxm).toNat := by omega
      have e2 : ((j : ℤ) - -pym).toNat = ((j : ℤ) + pym).toNat := by omega
      have e3 : ((k : ℤ) - -pzm).toNat = ((k : ℤ) + pzm).toNat := by omega
      rw [e1, e2, e3]
    · exfalso; omega

/-- Concrete instance of `output_image_on_base_grid`: a 2×1×1 padded image,
original grid 1×1×1, bottom-x pad 1. -/
theorem output_image_on_base_grid_witness :
    (postProcessZeropad true true 1 1 1 1 0 0 0 0 0
        ⟨2, 1, 1, fun i _ _ => (i : ℚ) + 3⟩ testImage).1.nx = 1 ∧
    (postProcessZeropad true true 1 1 1 1 0 0 0 0 0
        ⟨2, 1, 1, fun i _ _ => (i : ℚ) + 3⟩ testImage).1.vox 0 0 0 =
      (⟨2, 1, 1, fun i _ _ => (i : ℚ) + 3⟩ : Image3D).vox
        ((0 : ℤ) + 1).toNat ((0 : ℤ) + 0).toNat ((0 : ℤ) + 0).toNat := by
  have h := output_image_on_base_grid true 1 1 1 1 0 0 0 0 0
    ⟨2, 1, 1, fun i _ _ => (i : ℚ) + 3⟩ testImage (by decide) (by decide)
    (by decide) (by decide) (by decide) (by decide) (by decide) (by decide)
    (by decide) (by decide)
  exact ⟨h.1, h.2.2.2.1 0 0 0 (by decide) (by decide) (by decide)⟩

/-! ## The 3dAllineate pre-alignment boundary (C8)

`Qallineate`/`Qallin_resample` (`3dQwarp.c:896-973`) die when `system()`
returns non-zero; back in `main` (`1555-1605`), a missing output volume
makes the re-open fail fatally, and under `-allineate` a missing
`.aff12.1D` matrix file is fatal too. -/

/-- The observable outcome of the pre-alignment step: the subprocess exit
status, whether `Qunstr.nii` (or its `.gz` twin) exists afterwards, and
whether the `.aff12.1D` matrix file exists (only consulted under
`-allineate`; `-resample` writes no matrix). -/
def runAllinStage (do_allin : Bool) (exitCode : ℤ)
    (niiExists niigzExists affExists : Bool) : Except String Unit :=
  if exitCode ≠ 0 then
    .error "3dQwarp: 3dAllineate command failed :-("
  else if niiExists = false ∧ niigzExists = false then
    -- `ERROR_message("Can't find 3dAllineate output")`, then the re-open of
    -- the missing dataset fails and `ERROR_exit` fires
    .error "Can't open replacement source dataset :-("
  else if do_allin = true ∧ affExists = false then
    .error "Can't open 3dAllineate's .aff12.1D file??"
  else .ok ()

/-- C8: a non-zero exit of the external 3dAllineate command, or a missing
output volume (or, under `-allineate`, a missing affine matrix file), is
fatal for the whole run. -/
theorem allineate_failure_fatal (do_allin : Bool) (exitCode : ℤ)
    (nii gz aff : Bool)
    (h : exitCode ≠ 0 ∨ (nii = false ∧ gz = false) ∨
         (do_allin = true ∧ aff = false)) :
    ∃ e, runAllinStage do_allin exitCode nii gz aff = .error e := by
  unfold runAllinStage
  by_cases h1 : exitCode ≠ 0
  · exact ⟨"3dQwarp: 3dAllineate command failed :-(", if_pos h1⟩
  · rw [if_neg h1]
    rcases h with h | h | h
    · exact absurd h h1
    · exact ⟨"Can't open replacement source dataset :-(", if_pos h⟩
    · by_cases h2 : nii = false ∧ gz = false
      · exact ⟨"Can't open replacement source dataset :-(", if_pos h2⟩
      · rw [if_neg h2, if_pos h]
        exact ⟨"Can't open 3dAllineate's .aff12.1D file??", rfl⟩

/-- Concrete instance of `allineate_failure_fatal`: exit status 1. -/
theorem allineate_failure_fatal_witness :
    ∃ e, runAllinStage true 1 true true true = .error e :=
  allineate_failure_fatal true 1 true true true (Or.inl (by decide))

/-! ## Left-to-right option processing and `-lpc` (C9)

The option loop of `3dQwarp.c:1049-1403` processes `argv` left to right;
`-lpc` (line 1382-1385) sets `mlev = 0` as a side effect, and a later
`-maxlev` (1169-1175) overwrites `mlev` again. -/

/-- The command-line options this development tracks (others leave the
tracked state unchanged and are omitted). -/
inductive QOpt where
  | lpc                 -- -lpc
  | lpa                 -- -lpa
  | pear                -- -pear
  | pcl                 -- -pcl
  | hel                 -- -hel
  | mi                  -- -mi
  | nmi                 -- -nmi
  | maxlev (v : ℤ)      -- -maxlev v
  | inilev (v : ℤ)      -- -inilev v
  | iniwarp             -- -iniwarp (dataset name abstracted away)
  | duplo               -- -duplo
deriving DecidableEq

/-- The option-loop state relevant to metric/level selection. -/
structure OptState where
  meth : MatchMethod
  mlev : ℤ
  ilev : ℤ
  duplo : Bool
  iwname : Bool
  zeasy : Bool
  meth_is_lpc : Bool
deriving DecidableEq

/-- Initial values from the declarations in `main` (`3dQwarp.c:986-988`). -/
def initOptState : OptState :=
  { meth := .pearclp, mlev := 666, ilev := 0, duplo := false,
    iwname := false, zeasy := false, meth_is_lpc := false }

/-- One iteration of the option loop for a tracked option. -/
def applyOpt (s : OptState) : QOpt → Except String OptState
  | .lpc => .ok { s with meth := .localps, zeasy := true,
                         meth_is_lpc := true, mlev := 0 }
  | .lpa => .ok { s with meth := .localpa }
  | .pear => .ok { s with meth := .pearson }
  | .pcl => .ok { s with meth := .pearclp }
  | .hel => .ok { s with meth := .hellinger }
  | .mi => .ok { s with meth := .kullback }
  | .nmi => .ok { s with meth := .normutin }
  | .maxlev v =>
      if s.duplo = true then .error "Cannot use -maxlev with -duplo :-("
      else .ok { s with mlev := if v < 0 then 0 else if 99 < v then 99 else v }
  | .inilev v =>
      if s.duplo = true then .error "Cannot use -inilev with -duplo :-("
      else .ok { s with ilev := if v < 0 then 0 else if 19 < v then 19 else v }
  | .iniwarp =>
      if s.duplo = true then .error "Cannot use -iniwarp with -duplo :-("
      else if s.iwname = true then .error "Cannot use -iniwarp twice :-("
      else .ok { s with iwname := true }
  | .duplo =>
      if s.iwname = true then .error "Cannot use -duplo with -iniwarp :-("
      else if s.ilev ≠ 0 ∨ s.mlev < 99 then
        .error "Cannot use -duplo with -inilev or -maxlev :-("
      else .ok { s with duplo := true }

/-- The option loop from a given state. -/
def parseFrom (s : OptState) : List QOpt → Except String OptState
  | [] => .ok s
  | o :: rest =>
    match applyOpt s o with
    | .error e => .error e
    | .ok s' => parseFrom s' rest

/-- The whole option loop. -/
def parseOpts (l : List QOpt) : Except String OptState :=
  parseFrom initOptState l

theorem parseFrom_append (s : OptState) (l₁ l₂ : List QOpt) :
    parseFrom s (l₁ ++ l₂) =
      match parseFrom s l₁ with
      | .error e => .error e
      | .ok s' => parseFrom s' l₂ := by
  induction l₁ generalizing s with
  | nil => rfl
  | cons o rest ih =>
    simp only [List.cons_append, parseFrom]
    cases applyOpt s o with
    | error e => rfl
    | ok s' => exact ih s'

theorem parseFrom_lpc_last (s : OptState) (xs : List QOpt) (t : OptState)
    (h : parseFrom s (xs ++ [.lpc]) = .ok t) :
    t.mlev = 0 ∧ t.meth = .localps ∧ t.zeasy = true ∧
    t.meth_is_lpc = true := by
  rw [parseFrom_append] at h
  cases hp : parseFrom s xs with
  | error e => rw [hp] at h; cases h
  | ok s' =>
    rw [hp] at h
    simp only [parseFrom, applyOpt] at h
    injection h with h
    subst h
    exact ⟨rfl, rfl, rfl, rfl⟩

theorem parseFrom_maxlev_last (s : OptState) (xs : List QOpt) (v : ℤ)
    (t : OptState) (h : parseFrom s (xs ++ [.maxlev v]) = .ok t) :
    t.mlev = if v < 0 then 0 else if 99 < v then 99 else v := by
  rw [parseFrom_append] at h
  cases hp : parseFrom s xs with
  | error e => rw [hp] at h; cases h
  | ok s' =>
    rw [hp] at h
    simp only [parseFrom, applyOpt] at h
    by_cases hd : s'.duplo = true
    · rw [if_pos hd] at h; cases h
    · rw [if_neg hd] at h
      simp only [parseFrom] at h
      injection h with h
      subst h
      rfl

/-- C9: `-lpc` sets the maximum level to 0 as a parsing side effect; since
options are processed left to right, a `-maxlev` later on the command line
overrides it (to the clamped user value), while a `-maxlev` given earlier is
silently overwritten to 0. -/
theorem lpc_maxlev_ordering (xs ys : List QOpt) (v : ℤ)
    (s1 s2 s3 : OptState) :
    (parseOpts (xs ++ [QOpt.lpc]) = .ok s1 →
       s1.mlev = 0 ∧ s1.meth = .localps ∧ s1.meth_is_lpc = true) ∧
    (parseOpts ((xs ++ [QOpt.lpc]) ++ (ys ++ [QOpt.maxlev v])) = .ok s2 →
       s2.mlev = if v < 0 then 0 else if 99 < v then 99 else v) ∧
    (parseOpts ((xs ++ [QOpt.maxlev v]) ++ [QOpt.lpc]) = .ok s3 →
       s3.mlev = 0) := by
  refine ⟨?_, ?_, ?_⟩
  · intro h
    have hh := parseFrom_lpc_last initOptState xs s1 h
    exact ⟨hh.1, hh.2.1, hh.2.2.2⟩
  · intro h
    rw [show (xs ++ [QOpt.lpc]) ++ (ys ++ [QOpt.maxlev v]) =
          (xs ++ [QOpt.lpc] ++ ys) ++ [QOpt.maxlev v] by simp] at h
    exact parseFrom_maxlev_last initOptState _ v s2 h
  · intro h
    exact (parseFrom_lpc_last initOptState _ s3 h).1

/-- Concrete instance of `lpc_maxlev_ordering`: `-lpc` alone; `-lpc` then
`-maxlev 5`; `-maxlev 7` then `-lpc`. -/
theorem lpc_maxlev_ordering_witness :
    (∃ s, parseOpts ([] ++ [QOpt.lpc]) = .ok s ∧ s.mlev = 0) ∧
    (∃ t, parseOpts (([] ++ [QOpt.lpc]) ++ ([] ++ [QOpt.maxlev 5])) = .ok t ∧
       t.mlev = if (5:ℤ) < 0 then 0 else if 99 < (5:ℤ) then 99 else 5) ∧
    (∃ u, parseOpts (([] ++ [QOpt.maxlev 7]) ++ [QOpt.lpc]) = .ok u ∧
       u.mlev = 0) := by
  refine ⟨⟨_, rfl,
            ((lpc_maxlev_ordering [] [] 5 _ initOptState initOptState).1
              rfl).1⟩,
          ⟨_, rfl,
            (lpc_maxlev_ordering [] [] 5 initOptState _ initOptState).2.1
              rfl⟩,
          ⟨_, rfl,
            (lpc_maxlev_ordering [] [] 7 initOptState initOptState _).2.2
              rfl⟩⟩

/-! ## Zero-pad amounts depend only on the base (C10)

`3dQwarp.c` lines 1713-1808.  The block that would derive an autobox from
the *source* image is compiled out (`#if 0`, lines 1731-1743), with the
comment that "the zero padding is the same whenever the same base is used";
the source-box variables are simply copies of the base-box ones.
`THD_cliplevel` and `MRI_autobbox` live outside this tree and are taken as
black-box parameters. -/

/-- Per-face amounts (lower/upper per axis): used both for autoboxes and for
pad results. -/
structure BBox where
  xm : ℕ
  xp : ℕ
  ym : ℕ
  yp : ℕ
  zm : ℕ
  zp : ℕ
deriving DecidableEq

/-- Thresholding: `qar[ii] < cv` voxels zeroed (`3dQwarp.c:1720-1721`). -/
def threshImage (cv : ℚ) (im : Image3D) : Image3D :=
  { im with vox := fun i j k =>
      if im.vox i j k < cv then 0 else im.vox i j k }

/-- The zero-pad computation of `3dQwarp.c:1711-1808`, with the two
image-library black boxes (`THD_cliplevel`, `MRI_autobbox`) abstracted as
function parameters.  `sim` is accepted, as in the source, but the live
code never reads it. -/
def computePadding (cliplevel : Image3D → ℚ) (autobbox : Image3D → BBox)
    (do_allin : Bool) (dxal dyal dzal dx dy dz : ℚ)
    (nopad : Bool) (minpad expad : ℕ) (iw : BBox)
    (bim sim : Image3D) : BBox :=
  if nopad = true ∧ ¬(0 < expad ∨ 0 < minpad) then ⟨0, 0, 0, 0, 0, 0⟩
  else
    let cv : ℚ := (33/100) * cliplevel bim
    let bb := autobbox (threshImage cv bim)
    -- the source-derived autobox is compiled out; `spad_* = bpad_*`
    let sb := bb
    let pad_xm : ℤ := min (bb.xm : ℤ) (sb.xm : ℤ)
    let pad_xp : ℤ := max (bb.xp : ℤ) (sb.xp : ℤ)
    let pad_ym : ℤ := min (bb.ym : ℤ) (sb.ym : ℤ)
    let pad_yp : ℤ := max (bb.yp : ℤ) (sb.yp : ℤ)
    let pad_zm : ℤ := min (bb.zm : ℤ) (sb.zm : ℤ)
    let pad_zp : ℤ := max (bb.zp : ℤ) (sb.zp : ℤ)
    let dm0 : ℚ := min (min dx dy) dz
    let dm : ℚ := max (max (dxal / dm0) (dyal / dm0)) (dzal / dm0)
    let mpad_min : ℤ :=
      if do_allin = true then 9 + round ((10111/10000 : ℚ) * dm) else 9
    let mpad_x : ℤ := max (round ((1111/10000 : ℚ) * (bim.nx : ℚ))) mpad_min
    let mpad_y : ℤ := max (round ((1111/10000 : ℚ) * (bim.ny : ℚ))) mpad_min
    let mpad_z : ℤ := max (round ((1111/10000 : ℚ) * (bim.nz : ℚ))) mpad_min
    let qxm : ℤ := max (mpad_x - pad_xm) 0
    let qym : ℤ := max (mpad_y - pad_ym) 0
    let qzm : ℤ := max (mpad_z - pad_zm) 0
    let qxp : ℤ := max (mpad_x - ((bim.nx : ℤ) - 1 - pad_xp)) 0
    let qyp : ℤ := max (mpad_y - ((bim.ny : ℤ) - 1 - pad_yp)) 0
    let qzp : ℤ := max (mpad_z - ((bim.nz : ℤ) - 1 - pad_zp)) 0
    let rxm : ℤ := max qxm (iw.xm : ℤ)
    let rxp : ℤ := max qxp (iw.xp : ℤ)
    let rym : ℤ := max qym (iw.ym : ℤ)
    let ryp : ℤ := max qyp (iw.yp : ℤ)
    let rzm : ℤ := max qzm (iw.zm : ℤ)
    let rzp : ℤ := max qzp (iw.zp : ℤ)
    let uxm : ℤ := max rxm (minpad : ℤ)
    let uxp : ℤ := max rxp (minpad : ℤ)
    let uym : ℤ := max rym (minpad : ℤ)
    let uyp : ℤ := max ryp (minpad : ℤ)
    let uzm : ℤ := max rzm (minpad : ℤ)
    let uzp : ℤ := max rzp (minpad : ℤ)
    let txm : ℤ := if 0 < expad then uxm + expad else uxm
    let txp : ℤ := if 0 < expad then uxp + expad else uxp
    let tym : ℤ := if 0 < expad then uym + expad else uym
    let typ : ℤ := if 0 < expad then uyp + expad else uyp
    let tzm : ℤ := if 0 < expad then uzm + expad else uzm
    let tzp : ℤ := if 0 < expad then uzp + expad else uzp
    if bim.nz = 1 then ⟨txm.toNat, txp.toNat, tym.toNat, typ.toNat, 0, 0⟩
    else ⟨txm.toNat, txp.toNat, tym.toNat, typ.toNat, tzm.toNat, tzp.toNat⟩

/-- C10: without `-allineate`, the computed per-face zero-pad amounts are a
function of the base image, its grid, `-minpad`/`-expad`, and the
initial-warp padding only: changing the source image (and the
source-derived affine shifts, which exist only under `-allineate`) changes
nothing. -/
theorem padding_ignores_source (cliplevel : Image3D → ℚ)
    (autobbox : Image3D → BBox) (do_allin : Bool)
    (dxal1 dyal1 dzal1 dxal2 dyal2 dzal2 dx dy dz : ℚ)
    (nopad : Bool) (minpad expad : ℕ) (iw : BBox) (bim sim1 sim2 : Image3D)
    (h : do_allin = false) :
    computePadding cliplevel autobbox do_allin dxal1 dyal1 dzal1 dx dy dz
        nopad minpad expad iw bim sim1 =
      computePadding cliplevel autobbox do_allin dxal2 dyal2 dzal2 dx dy dz
        nopad minpad expad iw bim sim2 := by
  subst h
  rfl

/-- Concrete instance of `padding_ignores_source`: same base, two different
source images and affine-shift values. -/
theorem padding_ignores_source_witness :
    computePadding (fun _ => 1) (fun _ => ⟨0, 0, 0, 0, 0, 0⟩) false
        1 2 3 1 1 1 false 0 0 ⟨0, 0, 0, 0, 0, 0⟩ testImage testImage =
      computePadding (fun _ => 1) (fun _ => ⟨0, 0, 0, 0, 0, 0⟩) false
        4 5 6 1 1 1 false 0 0 ⟨0, 0, 0, 0, 0, 0⟩ testImage
        ⟨3, 3, 3, fun _ _ _ => 9⟩ :=
  padding_ignores_source (fun _ => 1) (fun _ => ⟨0, 0, 0, 0, 0, 0⟩) false
    1 2 3 4 5 6 1 1 1 false 0 0 ⟨0, 0, 0, 0, 0, 0⟩ testImage testImage
    ⟨3, 3, 3, fun _ _ _ => 9⟩ rfl

end Qwarp
